import Mathlib

/-!
Verification development for AsTTYSpy (`asttyspy.c`), a virtual TDD/TTY
utility driven by the Asterisk manager interface (AMI).

The definitions below are a shallow embedding of the functions of
`asttyspy.c`: the inbound event relay (`ami_callback`), the outbound text
path (`send_msg`), the DTMF dialing loop inside `handle_input`, the
escape-key state machine of `handle_input`, the channel directory
(`print_channels`, `get_channel`), the terminal restoration paths
(`restore_term`, `simple_disconnect_callback`) and the session lifecycle
loop (`ttyspy`).  External AMI action results are modelled as oracle
parameters (each call may independently succeed or fail); terminal output
is modelled as explicit chunk traces, and machine integers as `Nat`/`Int`.
-/

namespace AsTTYSpy

/-! ### Inbound decoding (ami_callback, lines 140-156) -/

/-- The character-by-character loop of `ami_callback` that replaces each
underscore of the received message with a space (`while (*c) { if (*c == '_') *c = ' '; c++; }`). -/
def replaceUnderscores : List Char → List Char
  | [] => []
  | c :: rest => (if c = '_' then ' ' else c) :: replaceUnderscores rest

/-- What `ami_callback` prints for an accepted message: the literal
two-character sequence backslash-n becomes one newline, any other message
has its underscores replaced by spaces. -/
def decodeInbound (msg : String) : String :=
  if msg = "\\n" then "\n" else String.mk (replaceUnderscores msg.data)

/-! ### Outbound encoding (send_msg, lines 215-222) -/

/-- The loop of `send_msg` that replaces each space of the typed text with
an underscore before passing it to the `TddTx` action. -/
def replaceSpaces : List Char → List Char
  | [] => []
  | c :: rest => (if c = ' ' then '_' else c) :: replaceSpaces rest

/-- The message actually handed to the `TddTx` AMI action by `send_msg`. -/
def encodeOutbound (typed : String) : String :=
  String.mk (replaceSpaces typed.data)

/-! ### Shared relay state and output chunks -/

/-- The globals of `asttyspy.c` relevant to the relay: `our_turn`,
`tty_active`, `new_channel` and `ttychan`. -/
structure TTYState where
  ourTurn : Bool
  ttyActive : Nat
  newChannel : Bool
  ttychan : String
deriving DecidableEq

/-- One terminal-output chunk, in chronological order of emission.
`remoteLabel` is the `"\nTTY: "` switched-to-remote label, `localLabel`
the `"\nCA : "` switched-to-local label, `disconnectMsg` the
`"*** CALL DISCONNECTED ***"` stderr report. -/
inductive Chunk
  | remoteLabel
  | localLabel
  | text (s : String)
  | disconnectMsg
deriving DecidableEq

def isRemoteLabel : Chunk → Bool
  | Chunk.remoteLabel => true
  | _ => false

def isLocalLabel : Chunk → Bool
  | Chunk.localLabel => true
  | _ => false

/-- An AMI action issued by the program. -/
inductive Action
  | tddTx (channel message : String)
  | playDTMF (channel : String) (digit : Char)
  | tddRx (channel options : String)
deriving DecidableEq

/-- An inbound AMI event as seen by `ami_callback`: the `Event`, `Channel`
and `Message` key values. -/
structure AmiEvent where
  eventName : String
  channel : String
  message : String
deriving DecidableEq

/-- The channel-topology event names recognized at line 119. -/
def isTopologyEvent (e : String) : Bool :=
  e = "Newchannel" || e = "Hangup" || e = "DeviceStateChange"

/-- Shallow embedding of `ami_callback` (lines 115-162): returns the
updated global state and the chunks printed to the terminal. -/
def ami_callback (s : TTYState) (ev : AmiEvent) : TTYState × List Chunk :=
  if s.ttyActive = 1 ∧ isTopologyEvent ev.eventName then
    ({ s with newChannel := true }, [])
  else if s.ttyActive < 2 then
    (s, [])
  else if ev.eventName ≠ "TddRxMsg" then
    (s, [])
  else if ev.channel ≠ s.ttychan then
    (s, [])
  else
    ({ s with ourTurn := false },
      (if s.ourTurn then [Chunk.remoteLabel] else []) ++
        [Chunk.text (decodeInbound ev.message)])

/-- Result of one `send_msg` call: updated state, AMI actions issued,
terminal chunks in chronological order, and whether the action failed
(nonzero return). -/
structure SendResult where
  state : TTYState
  actions : List Action
  events : List Chunk
  failed : Bool
deriving DecidableEq

/-- Shallow embedding of `send_msg` (lines 204-241).  `fails` is the
result of the `TddTx` action (true = nonzero/failure).  On success with
the turn not ours, the switched-to-local label is printed and the turn
flips; the typed text is echoed unchanged in every case; on failure the
disconnect report follows the echo. -/
def send_msg (s : TTYState) (typed : String) (fails : Bool) : SendResult :=
  { state := if ¬fails ∧ ¬s.ourTurn then { s with ourTurn := true } else s
    actions := [Action.tddTx s.ttychan (encodeOutbound typed)]
    events :=
      (if ¬fails ∧ ¬s.ourTurn then [Chunk.localLabel] else []) ++
        [Chunk.text typed] ++
        (if fails then [Chunk.disconnectMsg] else [])
    failed := fails }

/-- A relay-visible operation: a local send (with its action result) or a
remote `TddRxMsg` receive on the active channel. -/
inductive TTYOp
  | localSend (typed : String) (fails : Bool)
  | remoteRecv (msg : String)

/-- One step of the active relay: dispatches to `send_msg` or to
`ami_callback` with a `TddRxMsg` event for the active channel. -/
def ttyStep (s : TTYState) (op : TTYOp) : TTYState × List Chunk :=
  match op with
  | TTYOp.localSend typed fails =>
      let r := send_msg s typed fails
      (r.state, r.events)
  | TTYOp.remoteRecv msg =>
      ami_callback s { eventName := "TddRxMsg", channel := s.ttychan, message := msg }

/-- The turn indicator reads Local exactly when `our_turn` is set. -/
def isLocalTurn (s : TTYState) : Bool := s.ourTurn

/-- The turn indicator reads Remote (or unset) exactly when `our_turn` is
clear; the code folds Remote and Unset into `our_turn == 0`. -/
def isRemoteTurn (s : TTYState) : Bool := !s.ourTurn

/-- Outcome of one dispatched key in `handle_input`'s loop. -/
inductive LoopOutcome
  | next
  | reselect
  | disconnect
deriving DecidableEq

/-- The plain-text branch at lines 344-348: send the one-character string;
a failing send returns -1 (disconnect) from the input loop. -/
def handle_text_key (s : TTYState) (c : Char) (fails : Bool) :
    TTYState × List Chunk × LoopOutcome :=
  let r := send_msg s (String.mk [c]) fails
  (r.state, r.events, if r.failed then LoopOutcome.disconnect else LoopOutcome.next)

/-! ### Terminal I/O adapter (restore_term, simple_disconnect_callback, ttyspy) -/

/-- The terminal attribute bits the program manipulates: the `ICANON` and
`ECHO` flags of `c_lflag` (lines 476, 502-503). -/
structure TermAttrs where
  icanon : Bool
  echo : Bool
deriving DecidableEq

/-- Process state relevant to the exit paths: the attributes saved in
`origterm` at session start, the attributes currently applied to the
terminal, `tty_active`, and whether the AMI connection is still open. -/
structure ProcState where
  origterm : TermAttrs
  term : TermAttrs
  ttyActive : Nat
  amiConnected : Bool
deriving DecidableEq

/-- Shallow embedding of `simple_disconnect_callback` (lines 164-169):
prints the diagnostic to stderr and exits with `EXIT_FAILURE`.  It issues
no `tcsetattr` call, so the terminal attributes are whatever they already
were.  Returns (final process state, stderr lines, exit status). -/
def simple_disconnect_callback (s : ProcState) : ProcState × List String × Nat :=
  (s, ["\nAMI was forcibly disconnected...\n"], 1)

/-- Shallow embedding of `restore_term` (lines 458-468), the SIGINT
handler: clears `tty_active`, reapplies `origterm` via `tcsetattr`,
disconnects AMI, prints the exit diagnostic and exits with
`EXIT_FAILURE`. -/
def restore_term (s : ProcState) : ProcState × List String × Nat :=
  ({ s with ttyActive := 0, term := s.origterm, amiConnected := false },
    ["\nAsTTYSpy exiting...\n"], 1)

/-- Pre-session terminal attributes: canonical mode with echo. -/
def preSessionAttrs : TermAttrs := { icanon := true, echo := true }

/-- Attributes applied once the relay is fully active (lines 502-505):
`ICANON` and `ECHO` both cleared. -/
def activeRawAttrs : TermAttrs := { icanon := false, echo := false }

/-- Process state during an active session: raw terminal, saved
pre-session attributes, relay fully active, AMI connected. -/
def activeSessionState : ProcState :=
  { origterm := preSessionAttrs, term := activeRawAttrs, ttyActive := 2, amiConnected := true }

/-! ### Input state machine (handle_input, lines 243-352) -/

def KEY_ESCAPE : Char := Char.ofNat 27

/-- The `IS_DTMF` macro at line 196: digits, `A`-`D`, `*`, `#`. -/
def IS_DTMF (c : Char) : Bool :=
  c.isDigit || ('A' ≤ c && c ≤ 'D') || c = '*' || c = '#'

/-- The per-key state of `handle_input`: the `got_escape` flag and the
persistent `dtmf_mode` flag. -/
structure InputState where
  gotEscape : Bool
  dtmfMode : Bool
deriving DecidableEq

/-- How one key is dispatched by `handle_input`. -/
inductive KeyAction
  | armEscape
  | command (c : Char)
  | dtmf (c : Char)
  | text (c : Char)
deriving DecidableEq

/-- Shallow embedding of the per-key dispatch of `handle_input` (lines
271-348): an escape key arms `got_escape` and consumes no command; any key
while `got_escape` is set clears it and is dispatched as a control command
(where `d` toggles DTMF mode); otherwise a DTMF-mode tone character goes
to the tone path and anything else to the text path. -/
def handle_key (s : InputState) (c : Char) : InputState × KeyAction :=
  if c = KEY_ESCAPE then
    ({ s with gotEscape := true }, KeyAction.armEscape)
  else if s.gotEscape then
    ({ gotEscape := false,
       dtmfMode := if c = 'd' then !s.dtmfMode else s.dtmfMode }, KeyAction.command c)
  else if s.dtmfMode && IS_DTMF c then
    (s, KeyAction.dtmf c)
  else
    (s, KeyAction.text c)

/-! ### DTMF dialing (handle_input case '1', lines 297-317; send_dtmf) -/

/-- One observable emission of the dialing loop: a `PlayDTMF` tone action
for one character, or the fixed `usleep(100000)` (~100ms) inter-digit
delay. -/
inductive DialEv
  | tone (c : Char)
  | delay
deriving DecidableEq

def isToneEv : DialEv → Bool
  | DialEv.tone _ => true
  | _ => false

def isDelayEv : DialEv → Bool
  | DialEv.delay => true
  | _ => false

/-- Shallow embedding of the dialing loop at lines 308-316 together with
the buffer it walks.  `current_digit` starts at `dialnum[0]` and the
`while (*current_digit)` loop runs until the first NUL byte found in the
buffer: `read()` at line 302 does not write a NUL terminator and
`dialnum` (line 248) is never initialized or cleared, so the walked
region is the buffer content up to whatever NUL it happens to contain,
not just the bytes the user entered.  The argument list is that buffer
content.  Each `IS_DTMF` character causes one `send_dtmf` action (its
result given by the oracle `fails`, indexed by attempt number), aborting
immediately on failure (`return -1`), otherwise followed by the 100ms
delay; other non-NUL characters emit nothing.  Returns the emission
trace and whether the loop aborted. -/
def send_number (fails : Nat → Bool) : Nat → List Char → List DialEv × Bool
  | _, [] => ([], false)
  | k, c :: rest =>
    if c = '\x00' then ([], false)
    else if IS_DTMF c then
      if fails k then ([DialEv.tone c], true)
      else
        let r := send_number fails (k + 1) rest
        (DialEv.tone c :: DialEv.delay :: r.1, r.2)
    else send_number fails k rest

/-- What the `read()` call at line 302 leaves in the `dialnum` buffer:
the newly read bytes overwrite a prefix of the buffer and the remaining
previous contents stay in place; no NUL terminator is written. -/
def buffer_after_read (newBytes oldBuf : List Char) : List Char :=
  newBytes ++ oldBuf.drop newBytes.length

/-! ### Channel directory (print_channels lines 354-386, get_channel lines 388-456) -/

/-- Pair each listed element with its 1-based display index. -/
def rowsFrom {α : Type} (i : Nat) : List α → List (Nat × α)
  | [] => []
  | a :: rest => (i, a) :: rowsFrom (i + 1) rest

/-- Shallow embedding of the display loop of `print_channels` (lines
372-380): rows are printed for raw indices `1 .. size-2`, skipping the
first raw entry (the action response fields) and the last (the
`CoreShowChannelsComplete` sentinel); each row shows its raw index as the
selectable number. -/
def print_channels {α : Type} (events : List α) : List (Nat × α) :=
  rowsFrom 1 ((events.drop 1).take (events.length - 2))

/-- The value of the loop counter `i` of `print_channels` after the loop,
written back through `iptr` and used by `get_channel` as the exclusive
upper bound of valid selections: `i` starts at 1 and ends at
`max 1 (size-1)`. -/
def print_channels_i (rawSize : Nat) : Nat := max 1 (rawSize - 1)

/-- The C `isspace` set in the default locale, as consumed by `atoi`. -/
def isSpaceC (c : Char) : Bool :=
  c = ' ' || c = '\t' || c = '\n' || c = Char.ofNat 11 || c = Char.ofNat 12 || c = '\r'

/-- The digit-accumulation loop of C `atoi`: consume a maximal run of
decimal digits, stopping at the first non-digit. -/
def atoiDigits : List Char → Int → Int
  | [], acc => acc
  | c :: rest, acc =>
    if c.isDigit then atoiDigits rest (10 * acc + ((c.toNat : Int) - 48)) else acc

/-- C `atoi` as used on the selection line at line 440: skip leading
whitespace, an optional sign, then a maximal digit run; no digits means
0. -/
def atoi (s : String) : Int :=
  match s.data.dropWhile isSpaceC with
  | '-' :: rest => -(atoiDigits rest 0)
  | '+' :: rest => atoiDigits rest 0
  | l => atoiDigits l 0

/-- Case-insensitive string equality, modelling `strcasecmp(...) == 0`. -/
def strcaseEq (a b : String) : Bool :=
  a.data.map Char.toLower = b.data.map Char.toLower

/-- What one input line makes `get_channel` do next. -/
inductive Selection
  | quit
  | refresh
  | channel (k : Nat)
  | invalid
deriving DecidableEq

/-- Shallow embedding of the per-line decision of `get_channel` (lines
435-447): `q` (case-insensitive, with trailing newline) quits; a bare
newline refreshes; otherwise `atoi` of the line is accepted when it lies
in `[1, i)` where `i` is `print_channels_i` of the raw listing size, and
anything else is flagged invalid (which re-prompts). -/
def select_channel (line : String) (i : Int) : Selection :=
  if strcaseEq line "q\n" then Selection.quit
  else if line = "\n" then Selection.refresh
  else
    let chanNo := atoi line
    if 1 ≤ chanNo ∧ chanNo < i then Selection.channel chanNo.toNat
    else Selection.invalid

/-- Modelled from the spec (claim C6's words): a "numeric string" input
line, i.e. one or more decimal digits followed by the newline captured by
`fgets`.  Used only to compare the claim's wording with `select_channel`'s
actual `atoi`-based acceptance. -/
def isNumericLine (s : String) : Bool :=
  match s.data.reverse with
  | '\n' :: rest => !rest.isEmpty && rest.all Char.isDigit
  | _ => false

/-- Modelled from the spec (claim C6's words): the number denoted by a
numeric string, standard decimal reading. -/
def digitsVal (ds : List Char) : Nat :=
  ds.foldl (fun a c => 10 * a + (c.toNat - 48)) 0

/-! ### Session lifecycle (ttyspy, lines 470-517) -/

/-- Observable lifecycle events of the `ttyspy` loop: the `TddRx`
relay-enable action for a channel, the "Failed to enable TTY" error
message, and the hand-off to the active input loop. -/
inductive LifeEv
  | enableRelay (chan : String)
  | enableFailMsg (chan : String)
  | activeSession (chan : String)
deriving DecidableEq

def isEnableEv : LifeEv → Bool
  | LifeEv.enableRelay _ => true
  | _ => false

def isFailMsgEv : LifeEv → Bool
  | LifeEv.enableFailMsg _ => true
  | _ => false

def isActiveEv : LifeEv → Bool
  | LifeEv.activeSession _ => true
  | _ => false

/-- Shallow embedding of the `for (;;)` loop of `ttyspy` (lines 481-512),
as the trace of lifecycle events it produces.  Per iteration: `getChan`
gives the selected channel (`none` models `get_channel` failing or
quitting, which breaks the loop); the `TddRx` enable action is issued
exactly once, its result given by `enableOk`; on failure the error
message is printed and the loop breaks; on success the input loop runs
(`inputQuit true` models `handle_input` returning nonzero, breaking the
loop; `false` models the reselect outcome, looping again).  `fuel` bounds
the unrolling of the infinite loop. -/
def ttyspy_loop (getChan : Nat → Option String) (enableOk : Nat → Bool)
    (inputQuit : Nat → Bool) : Nat → Nat → List LifeEv
  | 0, _ => []
  | fuel + 1, iter =>
    match getChan iter with
    | none => []
    | some ch =>
      LifeEv.enableRelay ch ::
        (if enableOk iter then
          LifeEv.activeSession ch ::
            (if inputQuit iter then []
             else ttyspy_loop getChan enableOk inputQuit fuel (iter + 1))
        else [LifeEv.enableFailMsg ch])

/-- A lifecycle trace never continues past an enable-failure message: the
session terminates there, with no retry. -/
def failTerminal : List LifeEv → Bool
  | [] => true
  | LifeEv.enableFailMsg _ :: rest => rest.isEmpty
  | _ :: rest => failTerminal rest

/-- A lifecycle trace in which every entry into the Active phase is exactly
one `enableRelay` action immediately followed by the active session on the
same channel, and a failed enable is immediately followed by its error
message and the end of the trace. -/
def enablePairedTrace : List LifeEv → Bool
  | [] => true
  | LifeEv.enableRelay ch :: LifeEv.activeSession ch2 :: rest =>
      ch = ch2 && enablePairedTrace rest
  | LifeEv.enableRelay ch :: LifeEv.enableFailMsg ch2 :: rest =>
      ch = ch2 && rest.isEmpty
  | _ => false

/-! ### Helper lemmas -/

theorem replaceUnderscores_length (l : List Char) :
    (replaceUnderscores l).length = l.length := by
  induction l with
  | nil => rfl
  | cons c rest ih => simp [replaceUnderscores, ih]

theorem replaceUnderscores_getElem (l : List Char) (i : Nat) :
    (replaceUnderscores l)[i]? = l[i]?.map (fun c => if c = '_' then ' ' else c) := by
  induction l generalizing i with
  | nil => simp [replaceUnderscores]
  | cons c rest ih =>
    cases i with
    | zero => simp [replaceUnderscores]
    | succ j => simp [replaceUnderscores, ih]

theorem replaceSpaces_length (l : List Char) :
    (replaceSpaces l).length = l.length := by
  induction l with
  | nil => rfl
  | cons c rest ih => simp [replaceSpaces, ih]

theorem replaceSpaces_getElem (l : List Char) (i : Nat) :
    (replaceSpaces l)[i]? = l[i]?.map (fun c => if c = ' ' then '_' else c) := by
  induction l generalizing i with
  | nil => simp [replaceSpaces]
  | cons c rest ih =>
    cases i with
    | zero => simp [replaceSpaces]
    | succ j => simp [replaceSpaces, ih]

theorem char_digit_ge_48 (c : Char) (h : c.isDigit = true) : 48 ≤ c.toNat := by
  simp [Char.isDigit, Char.le_def] at h
  exact h.1

theorem char_digit_not_space (c : Char) (h : c.isDigit = true) : isSpaceC c = false := by
  have h48 := char_digit_ge_48 c h
  simp only [isSpaceC, Bool.or_eq_false_iff, decide_eq_false_iff_not]
  refine ⟨⟨⟨⟨⟨?_, ?_⟩, ?_⟩, ?_⟩, ?_⟩, ?_⟩ <;> intro he <;> rw [he] at h48 <;>
    exact absurd h48 (by decide)

theorem rowsFrom_length {α : Type} (i : Nat) (l : List α) :
    (rowsFrom i l).length = l.length := by
  induction l generalizing i with
  | nil => rfl
  | cons a rest ih => simp [rowsFrom, ih]

theorem rowsFrom_getElem {α : Type} (i : Nat) (l : List α) (j : Nat) :
    (rowsFrom i l)[j]? = l[j]?.map (fun a => (i + j, a)) := by
  induction l generalizing i j with
  | nil => simp [rowsFrom]
  | cons a rest ih =>
    cases j with
    | zero => simp [rowsFrom]
    | succ j' =>
      simp only [rowsFrom, List.getElem?_cons_succ, ih]
      cases rest[j']? with
      | none => rfl
      | some b =>
        have hadd : i + 1 + j' = i + (j' + 1) := by omega
        simp [hadd]

theorem print_channels_length {α : Type} (events : List α) (h : 2 ≤ events.length) :
    (print_channels events).length = events.length - 2 := by
  simp only [print_channels, rowsFrom_length, List.length_take, List.length_drop]
  omega

theorem print_channels_getElem {α : Type} (events : List α) (j : Nat)
    (hj : j < events.length - 2) :
    (print_channels events)[j]? = (events[j + 1]?).map (fun a => (j + 1, a)) := by
  simp only [print_channels, rowsFrom_getElem, List.getElem?_take_of_lt hj,
    List.getElem?_drop]
  rw [Nat.add_comm 1 j]

theorem atoiDigits_digits_newline (ds : List Char) (acc : Int)
    (hd : ∀ c ∈ ds, c.isDigit = true) :
    atoiDigits (ds ++ ['\n']) acc =
      ds.foldl (fun a c => 10 * a + ((c.toNat : Int) - 48)) acc := by
  induction ds generalizing acc with
  | nil => simp [atoiDigits]
  | cons c rest ih =>
    have hc : c.isDigit = true := hd c (List.mem_cons_self c rest)
    simp only [List.cons_append, atoiDigits, hc, if_pos, List.foldl_cons]
    exact ih _ (fun x hx => hd x (List.mem_cons_of_mem c hx))

theorem foldl_digits_int_nat (ds : List Char) (acc : Nat)
    (hd : ∀ c ∈ ds, c.isDigit = true) :
    ds.foldl (fun a c => 10 * a + ((c.toNat : Int) - 48)) (acc : Int) =
      ((ds.foldl (fun a c => 10 * a + (c.toNat - 48)) acc : Nat) : Int) := by
  induction ds generalizing acc with
  | nil => simp
  | cons c rest ih =>
    have hc : c.isDigit = true := hd c (List.mem_cons_self c rest)
    have h48 := char_digit_ge_48 c hc
    simp only [List.foldl_cons]
    have hstep : 10 * (acc : Int) + ((c.toNat : Int) - 48) =
        ((10 * acc + (c.toNat - 48) : Nat) : Int) := by
      push_cast [Nat.cast_sub h48]
      ring
    rw [hstep, ih _ (fun x hx => hd x (List.mem_cons_of_mem c hx))]

theorem atoi_numeric_line (ds : List Char) (h0 : ds ≠ [])
    (hd : ∀ c ∈ ds, c.isDigit = true) :
    atoi (String.mk (ds ++ ['\n'])) = (digitsVal ds : Int) := by
  cases ds with
  | nil => exact absurd rfl h0
  | cons c0 tl =>
    have hc0 : c0.isDigit = true := hd c0 (List.mem_cons_self c0 tl)
    have hns : isSpaceC c0 = false := char_digit_not_space c0 hc0
    have h48 := char_digit_ge_48 c0 hc0
    have hminus : c0 ≠ '-' := by
      intro he; rw [he] at h48; exact absurd h48 (by decide)
    have hplus : c0 ≠ '+' := by
      intro he; rw [he] at h48; exact absurd h48 (by decide)
    simp only [atoi, String.mk, List.cons_append, List.dropWhile_cons, hns,
      Bool.false_eq_true, if_false]
    split
    next heq => exact absurd (List.cons.inj heq).1 hminus
    next heq => exact absurd (List.cons.inj heq).1 hplus
    next =>
      have hrw := atoiDigits_digits_newline (c0 :: tl) 0 hd
      simp only [List.cons_append] at hrw
      have hcast := foldl_digits_int_nat (c0 :: tl) 0 hd
      simp only [Nat.cast_zero] at hcast
      rw [hrw, hcast]
      rfl

theorem ttyspy_loop_enable_count (g : Nat → Option String) (e : Nat → Bool)
    (q : Nat → Bool) (fuel iter : Nat) :
    (ttyspy_loop g e q fuel iter).countP isEnableEv =
      (ttyspy_loop g e q fuel iter).countP isActiveEv +
        (ttyspy_loop g e q fuel iter).countP isFailMsgEv := by
  induction fuel generalizing iter with
  | zero => simp [ttyspy_loop]
  | succ n ih =>
    simp only [ttyspy_loop]
    cases g iter with
    | none => simp
    | some ch =>
      by_cases he : e iter = true
      · by_cases hq : q iter = true
        · simp [he, hq, List.countP_cons, isEnableEv, isActiveEv, isFailMsgEv]
        · simp only [Bool.not_eq_true] at hq
          simp [he, hq, List.countP_cons, isEnableEv, isActiveEv, isFailMsgEv, ih]
          omega
      · simp only [Bool.not_eq_true] at he
        simp [he, List.countP_cons, isEnableEv, isActiveEv, isFailMsgEv]

theorem ttyspy_loop_failMsg_le_one (g : Nat → Option String) (e : Nat → Bool)
    (q : Nat → Bool) (fuel iter : Nat) :
    (ttyspy_loop g e q fuel iter).countP isFailMsgEv ≤ 1 := by
  induction fuel generalizing iter with
  | zero => simp [ttyspy_loop]
  | succ n ih =>
    simp only [ttyspy_loop]
    cases g iter with
    | none => simp
    | some ch =>
      by_cases he : e iter = true
      · by_cases hq : q iter = true
        · simp [he, hq, List.countP_cons, isFailMsgEv]
        · simp only [Bool.not_eq_true] at hq
          simp only [he, if_true, hq, Bool.false_eq_true, if_false,
            List.countP_cons, isFailMsgEv]
          simpa using ih (iter + 1)
      · simp only [Bool.not_eq_true] at he
        simp [he, List.countP_cons, isFailMsgEv]

theorem ttyspy_loop_failTerminal (g : Nat → Option String) (e : Nat → Bool)
    (q : Nat → Bool) (fuel iter : Nat) :
    failTerminal (ttyspy_loop g e q fuel iter) = true := by
  induction fuel generalizing iter with
  | zero => simp [ttyspy_loop, failTerminal]
  | succ n ih =>
    simp only [ttyspy_loop]
    cases g iter with
    | none => simp [failTerminal]
    | some ch =>
      by_cases he : e iter = true
      · by_cases hq : q iter = true
        · simp [he, hq, failTerminal]
        · simp only [Bool.not_eq_true] at hq
          simp [he, hq, failTerminal, ih]
      · simp only [Bool.not_eq_true] at he
        simp [he, failTerminal]

theorem char_digit_le_57 (c : Char) (h : c.isDigit = true) : c.toNat ≤ 57 := by
  simp [Char.isDigit, Char.le_def] at h
  exact h.2

theorem char_digit_toLower (c : Char) (h : c.isDigit = true) : c.toLower = c := by
  have h57 := char_digit_le_57 c h
  rw [Char.toLower]
  rw [if_neg]
  omega

theorem strcaseEq_digits_ne_q (ds : List Char) (hd : ∀ c ∈ ds, c.isDigit = true) :
    strcaseEq (String.mk (ds ++ ['\n'])) "q\n" = false := by
  cases ds with
  | nil => decide
  | cons d tl =>
    simp only [strcaseEq, decide_eq_false_iff_not]
    intro heq
    have hql : List.map Char.toLower ['q', '\n'] = ['q', '\n'] := by decide
    rw [hql] at heq
    simp only [String.mk, List.cons_append, List.map_cons] at heq
    have hdd : d.isDigit = true := hd d (List.mem_cons_self d tl)
    have h1 : d.toLower = 'q' := (List.cons.inj heq).1
    rw [char_digit_toLower d hdd] at h1
    rw [h1] at hdd
    exact absurd hdd (by decide)

theorem numeric_line_ne_newline (ds : List Char) (h0 : ds ≠ []) :
    String.mk (ds ++ ['\n']) ≠ "\n" := by
  intro he
  have hdata : ds ++ ['\n'] = ['\n'] := congrArg String.data he
  have hlen := congrArg List.length hdata
  simp at hlen
  exact h0 hlen

theorem ttyspy_loop_paired (g : Nat → Option String) (e : Nat → Bool)
    (q : Nat → Bool) (fuel iter : Nat) :
    enablePairedTrace (ttyspy_loop g e q fuel iter) = true := by
  induction fuel generalizing iter with
  | zero => simp [ttyspy_loop, enablePairedTrace]
  | succ n ih =>
    simp only [ttyspy_loop]
    cases g iter with
    | none => simp [enablePairedTrace]
    | some ch =>
      by_cases he : e iter = true
      · by_cases hq : q iter = true
        · simp [he, hq, enablePairedTrace]
        · simp only [Bool.not_eq_true] at hq
          simp [he, hq, enablePairedTrace, ih]
      · simp only [Bool.not_eq_true] at he
        simp [he, enablePairedTrace]

/-! ### Claim theorems -/

/-- C1 counterexample: with the terminal in active-session raw mode, the
forced-disconnect callback exits with a nonzero status but leaves the
terminal attributes different from the saved pre-session values — the
claim that it restores them before exiting is false on the code. -/
theorem c1_counterexample :
    (simple_disconnect_callback activeSessionState).1.term ≠ activeSessionState.origterm ∧
    (simple_disconnect_callback activeSessionState).2.2 ≠ 0 := by
  decide

/-- C1 (amended): when the manager-client reports a forced external
disconnect, the process prints the disconnect diagnostic and exits with a
nonzero status immediately, leaving the terminal attributes exactly as
they were (no restoration); restoring `origterm` is done only by the
SIGINT handler `restore_term` (and the normal teardown path). -/
theorem c1_disconnect_no_restore (s : ProcState) :
    (simple_disconnect_callback s).1.term = s.term ∧
    (simple_disconnect_callback s).1 = s ∧
    (simple_disconnect_callback s).2.1 = ["\nAMI was forcibly disconnected...\n"] ∧
    (simple_disconnect_callback s).2.2 = 1 ∧
    (restore_term s).1.term = s.origterm ∧
    (restore_term s).2.2 = 1 :=
  ⟨rfl, rfl, rfl, rfl, rfl, rfl⟩

/-- C7: the claim that dialing the entered string "1800#" emits exactly
5 tone actions, one per entered tone character, is the clear intent of
the dial command, and on a buffer that happens to hold a NUL byte right
after the entered bytes the code does produce exactly that 5-tone trace,
each tone followed by the 100ms delay.  But `read()` at line 302 does
not NUL-terminate `dialnum` and the buffer (line 248) is never cleared,
so the `while (*current_digit)` loop at line 308 keeps walking stale
bytes beyond the entered string: after a previous dial whose entered
string was "18005551212", entering "1800#" leaves the buffer holding
the bytes of "1800#", newline, "51212", newline, and the dial emits 10
tone actions instead of 5. -/
theorem c7_stale_buffer_dial :
    (send_number (fun _ => false) 0 ("1800#\n".data ++ ['\x00'])).1 =
      [DialEv.tone '1', DialEv.delay, DialEv.tone '8', DialEv.delay, DialEv.tone '0',
        DialEv.delay, DialEv.tone '0', DialEv.delay, DialEv.tone '#', DialEv.delay] ∧
    buffer_after_read ("1800#\n".data) ("18005551212\n".data ++ ['\x00']) =
      "1800#\n".data ++ "51212\n".data ++ ['\x00'] ∧
    ((send_number (fun _ => false) 0
        (buffer_after_read ("1800#\n".data) ("18005551212\n".data ++ ['\x00']))).1).countP
      isToneEv = 10 ∧
    (send_number (fun _ => false) 0
        (buffer_after_read ("1800#\n".data) ("18005551212\n".data ++ ['\x00']))).1 =
      [DialEv.tone '1', DialEv.delay, DialEv.tone '8', DialEv.delay, DialEv.tone '0',
        DialEv.delay, DialEv.tone '0', DialEv.delay, DialEv.tone '#', DialEv.delay,
        DialEv.tone '5', DialEv.delay, DialEv.tone '1', DialEv.delay, DialEv.tone '2',
        DialEv.delay, DialEv.tone '1', DialEv.delay, DialEv.tone '2', DialEv.delay] := by
  decide

/-- C8: every `ttyspy` lifecycle trace pairs each entry into the Active
phase with exactly one preceding `TddRx` enable action on the same
channel; a failed enable is followed by the error message and terminates
the trace (no retry, at most one failure); the count of enable actions is
exactly the count of Active entries plus the count of failures. -/
theorem c8_enable_relay_once (g : Nat → Option String) (e : Nat → Bool)
    (q : Nat → Bool) (fuel iter : Nat) :
    enablePairedTrace (ttyspy_loop g e q fuel iter) = true ∧
    (ttyspy_loop g e q fuel iter).countP isEnableEv =
      (ttyspy_loop g e q fuel iter).countP isActiveEv +
        (ttyspy_loop g e q fuel iter).countP isFailMsgEv ∧
    (ttyspy_loop g e q fuel iter).countP isFailMsgEv ≤ 1 ∧
    failTerminal (ttyspy_loop g e q fuel iter) = true :=
  ⟨ttyspy_loop_paired g e q fuel iter, ttyspy_loop_enable_count g e q fuel iter,
    ttyspy_loop_failMsg_le_one g e q fuel iter, ttyspy_loop_failTerminal g e q fuel iter⟩

/-- C9 counterexample: after pressing escape twice in a row from the
initial input state, the pending-escape flag is still set and the second
key was not dispatched as a command — so "EscapePending is cleared after
consuming exactly one following key, which is dispatched as a command" is
false when the following key is the escape key itself. -/
theorem c9_counterexample :
    (handle_key (handle_key { gotEscape := false, dtmfMode := false } KEY_ESCAPE).1
        KEY_ESCAPE).1.gotEscape = true ∧
    (handle_key (handle_key { gotEscape := false, dtmfMode := false } KEY_ESCAPE).1
        KEY_ESCAPE).2 ≠ KeyAction.command KEY_ESCAPE := by
  decide

/-- C9 (amended): pressing the escape key always sets the pending-escape
flag; while the flag is set, any following non-escape key clears it and is
dispatched as a command, while a following escape key leaves the flag set
(re-arms) and is not dispatched as a command; with the flag clear, no key
is dispatched as a command. -/
theorem c9_escape_machine (s : InputState) (c : Char) :
    ((handle_key s KEY_ESCAPE).1.gotEscape = true) ∧
    (s.gotEscape = true → c ≠ KEY_ESCAPE →
      (handle_key s c).1.gotEscape = false ∧ (handle_key s c).2 = KeyAction.command c) ∧
    (s.gotEscape = true →
      (handle_key s KEY_ESCAPE).1.gotEscape = true ∧
      (handle_key s KEY_ESCAPE).2 = KeyAction.armEscape) ∧
    (s.gotEscape = false → ∀ a : Char, (handle_key s c).2 ≠ KeyAction.command a) := by
  refine ⟨by simp [handle_key], ?_, ?_, ?_⟩
  · intro hesc hne
    simp [handle_key, hne, hesc]
  · intro hesc
    simp [handle_key]
  · intro hesc a
    by_cases hc : c = KEY_ESCAPE
    · simp [handle_key, hc]
    · by_cases hd : s.dtmfMode = true ∧ IS_DTMF c = true
      · simp [handle_key, hc, hesc, hd]
      · simp [handle_key, hc, hesc, hd]

/-- C9 witness: from pending-escape state, the key q is dispatched as a
command and clears the flag. -/
theorem c9_witness :
    ({ gotEscape := true, dtmfMode := false } : InputState).gotEscape = true ∧
    ('q' : Char) ≠ KEY_ESCAPE ∧
    ((handle_key { gotEscape := true, dtmfMode := false } 'q').1.gotEscape = false ∧
      (handle_key { gotEscape := true, dtmfMode := false } 'q').2 = KeyAction.command 'q') :=
  ⟨rfl, by decide,
    (c9_escape_machine { gotEscape := true, dtmfMode := false } 'q').2.1 rfl (by decide)⟩

/-- C10: when the outbound text action fails, the turn indicator is left
unchanged and no switched-to-local label is printed, the typed character
is still echoed before the disconnect report, and the input loop
terminates with the disconnect outcome. -/
theorem c10_failed_send_behavior (s : TTYState) (c : Char) :
    (handle_text_key s c true).1 = s ∧
    (handle_text_key s c true).1.ourTurn = s.ourTurn ∧
    (handle_text_key s c true).2.1 = [Chunk.text (String.mk [c]), Chunk.disconnectMsg] ∧
    Chunk.localLabel ∉ (handle_text_key s c true).2.1 ∧
    (handle_text_key s c true).2.2 = LoopOutcome.disconnect := by
  refine ⟨?_, ?_, ?_, ?_, ?_⟩ <;> simp [handle_text_key, send_msg]

/-- C10 witness: concrete failed send of the character G. -/
theorem c10_witness :
    (handle_text_key ⟨false, 2, false, "SIP/x"⟩ 'G' true).1 =
      (⟨false, 2, false, "SIP/x"⟩ : TTYState) ∧
    (handle_text_key ⟨false, 2, false, "SIP/x"⟩ 'G' true).1.ourTurn =
      (⟨false, 2, false, "SIP/x"⟩ : TTYState).ourTurn ∧
    (handle_text_key ⟨false, 2, false, "SIP/x"⟩ 'G' true).2.1 =
      [Chunk.text (String.mk ['G']), Chunk.disconnectMsg] ∧
    Chunk.localLabel ∉ (handle_text_key ⟨false, 2, false, "SIP/x"⟩ 'G' true).2.1 ∧
    (handle_text_key ⟨false, 2, false, "SIP/x"⟩ 'G' true).2.2 = LoopOutcome.disconnect :=
  c10_failed_send_behavior ⟨false, 2, false, "SIP/x"⟩ 'G'

/-- C2: for every inbound text-delivery event accepted by the relay
(relay fully active, `TddRxMsg`, matching channel), the displayed text is
one line break when the payload is exactly the two-character
backslash-n sequence, and otherwise has every underscore displayed as a
space and every other character displayed unaltered, preceded by the
switched-to-remote label exactly when the turn was Local. -/
theorem c2_inbound_render (s : TTYState) (ev : AmiEvent)
    (hact : s.ttyActive = 2) (hkind : ev.eventName = "TddRxMsg")
    (hchan : ev.channel = s.ttychan) :
    ∃ d : String,
      (ami_callback s ev).2 =
        (if s.ourTurn then [Chunk.remoteLabel] else []) ++ [Chunk.text d] ∧
      (ev.message = "\\n" → d = "\n") ∧
      (ev.message ≠ "\\n" →
        d.data.length = ev.message.data.length ∧
        ∀ i : Nat,
          (ev.message.data[i]? = some '_' → d.data[i]? = some ' ') ∧
          (∀ c : Char, ev.message.data[i]? = some c → c ≠ '_' → d.data[i]? = some c)) := by
  refine ⟨decodeInbound ev.message, ?_, ?_, ?_⟩
  · simp [ami_callback, hact, hkind, hchan]
  · intro h
    simp [decodeInbound, h]
  · intro h
    have hdata : (decodeInbound ev.message).data = replaceUnderscores ev.message.data := by
      simp [decodeInbound, h]
    constructor
    · rw [hdata, replaceUnderscores_length]
    · intro i
      constructor
      · intro hu
        rw [hdata, replaceUnderscores_getElem, hu]
        simp
      · intro c hc hne
        rw [hdata, replaceUnderscores_getElem, hc]
        simp [hne]

/-- C2 witness: an active-relay event carrying HELLO_GA while the turn is
Local. -/
theorem c2_witness :
    ((⟨true, 2, false, "SIP/5"⟩ : TTYState)).ttyActive = 2 ∧
    ((⟨"TddRxMsg", "SIP/5", "HELLO_GA"⟩ : AmiEvent)).eventName = "TddRxMsg" ∧
    ((⟨"TddRxMsg", "SIP/5", "HELLO_GA"⟩ : AmiEvent)).channel =
      ((⟨true, 2, false, "SIP/5"⟩ : TTYState)).ttychan ∧
    ∃ d : String,
      (ami_callback ⟨true, 2, false, "SIP/5"⟩ ⟨"TddRxMsg", "SIP/5", "HELLO_GA"⟩).2 =
        (if ((⟨true, 2, false, "SIP/5"⟩ : TTYState)).ourTurn
          then [Chunk.remoteLabel] else []) ++ [Chunk.text d] ∧
      (((⟨"TddRxMsg", "SIP/5", "HELLO_GA"⟩ : AmiEvent)).message = "\\n" → d = "\n") ∧
      (((⟨"TddRxMsg", "SIP/5", "HELLO_GA"⟩ : AmiEvent)).message ≠ "\\n" →
        d.data.length =
          ((⟨"TddRxMsg", "SIP/5", "HELLO_GA"⟩ : AmiEvent)).message.data.length ∧
        ∀ i : Nat,
          (((⟨"TddRxMsg", "SIP/5", "HELLO_GA"⟩ : AmiEvent)).message.data[i]? = some '_' →
            d.data[i]? = some ' ') ∧
          (∀ c : Char,
            ((⟨"TddRxMsg", "SIP/5", "HELLO_GA"⟩ : AmiEvent)).message.data[i]? = some c →
            c ≠ '_' → d.data[i]? = some c)) :=
  ⟨rfl, rfl, rfl,
    c2_inbound_render ⟨true, 2, false, "SIP/5"⟩ ⟨"TddRxMsg", "SIP/5", "HELLO_GA"⟩
      rfl rfl rfl⟩

/-- C3: every outbound text string is passed to the `TddTx` transport
action with every space replaced by an underscore and no other character
changed, while the locally echoed text is the typed string unchanged. -/
theorem c3_outbound_encoding (s : TTYState) (typed : String) (fails : Bool) :
    (send_msg s typed fails).actions =
      [Action.tddTx s.ttychan (encodeOutbound typed)] ∧
    (encodeOutbound typed).data.length = typed.data.length ∧
    (∀ i : Nat,
      (typed.data[i]? = some ' ' → (encodeOutbound typed).data[i]? = some '_') ∧
      (∀ c : Char, typed.data[i]? = some c → c ≠ ' ' →
        (encodeOutbound typed).data[i]? = some c)) ∧
    Chunk.text typed ∈ (send_msg s typed fails).events := by
  have hdata : (encodeOutbound typed).data = replaceSpaces typed.data := rfl
  refine ⟨rfl, ?_, ?_, ?_⟩
  · rw [hdata, replaceSpaces_length]
  · intro i
    constructor
    · intro hs
      rw [hdata, replaceSpaces_getElem, hs]
      simp
    · intro c hc hne
      rw [hdata, replaceSpaces_getElem, hc]
      simp [hne]
  · simp [send_msg]

/-- C3 witness: the typed text GA SK is sent as GA_SK and echoed
verbatim. -/
theorem c3_witness :
    encodeOutbound "GA SK" = "GA_SK" ∧
    ((send_msg ⟨false, 2, false, "SIP/7"⟩ "GA SK" false).actions =
      [Action.tddTx ((⟨false, 2, false, "SIP/7"⟩ : TTYState)).ttychan
        (encodeOutbound "GA SK")] ∧
    (encodeOutbound "GA SK").data.length = "GA SK".data.length ∧
    (∀ i : Nat,
      ("GA SK".data[i]? = some ' ' → (encodeOutbound "GA SK").data[i]? = some '_') ∧
      (∀ c : Char, "GA SK".data[i]? = some c → c ≠ ' ' →
        (encodeOutbound "GA SK").data[i]? = some c)) ∧
    Chunk.text "GA SK" ∈ (send_msg ⟨false, 2, false, "SIP/7"⟩ "GA SK" false).events) :=
  ⟨by decide, c3_outbound_encoding ⟨false, 2, false, "SIP/7"⟩ "GA SK" false⟩

/-- C4: in an active session, a successful local send followed by a remote
receive yields exactly one switched-to-remote label between them (none in
the send output, exactly one in the receive output); two consecutive
remote receives emit no second remote label; two consecutive successful
local sends emit no second local label; and the turn indicator never reads
Local and Remote at the same time. -/
theorem c4_turn_indicator (s : TTYState) (hact : s.ttyActive = 2)
    (typed t2 msg m2 : String) :
    ((send_msg s typed false).events.countP isRemoteLabel = 0 ∧
      (ttyStep (send_msg s typed false).state (TTYOp.remoteRecv msg)).2.countP
        isRemoteLabel = 1) ∧
    (ttyStep (ttyStep s (TTYOp.remoteRecv msg)).1 (TTYOp.remoteRecv m2)).2.countP
      isRemoteLabel = 0 ∧
    (send_msg (send_msg s typed false).state t2 false).events.countP isLocalLabel = 0 ∧
    ¬(isLocalTurn s = true ∧ isRemoteTurn s = true) := by
  refine ⟨⟨?_, ?_⟩, ?_, ?_, ?_⟩
  · by_cases ht : s.ourTurn = true
    · simp [send_msg, ht, List.countP_cons, isRemoteLabel]
    · simp only [Bool.not_eq_true] at ht
      simp [send_msg, ht, List.countP_cons, isRemoteLabel]
  · by_cases ht : s.ourTurn = true
    · simp [send_msg, ht, ttyStep, ami_callback, hact, List.countP_cons, isRemoteLabel]
    · simp only [Bool.not_eq_true] at ht
      simp [send_msg, ht, ttyStep, ami_callback, hact, List.countP_cons, isRemoteLabel]
  · by_cases ht : s.ourTurn = true
    · simp [ttyStep, ami_callback, hact, ht, List.countP_cons, isRemoteLabel]
    · simp only [Bool.not_eq_true] at ht
      simp [ttyStep, ami_callback, hact, ht, List.countP_cons, isRemoteLabel]
  · by_cases ht : s.ourTurn = true
    · simp [send_msg, ht, List.countP_cons, isLocalLabel]
    · simp only [Bool.not_eq_true] at ht
      simp [send_msg, ht, List.countP_cons, isLocalLabel]
  · by_cases ht : s.ourTurn = true
    · simp [isLocalTurn, isRemoteTurn, ht]
    · simp only [Bool.not_eq_true] at ht
      simp [isLocalTurn, isRemoteTurn, ht]

/-- C4 witness: a concrete active state exercising send-then-receive and
the no-duplicate-label cases. -/
theorem c4_witness :
    ((⟨false, 2, false, "SIP/9"⟩ : TTYState)).ttyActive = 2 ∧
    (((send_msg ⟨false, 2, false, "SIP/9"⟩ "HI" false).events.countP isRemoteLabel = 0 ∧
      (ttyStep (send_msg ⟨false, 2, false, "SIP/9"⟩ "HI" false).state
        (TTYOp.remoteRecv "OK_GA")).2.countP isRemoteLabel = 1) ∧
    (ttyStep (ttyStep ⟨false, 2, false, "SIP/9"⟩ (TTYOp.remoteRecv "OK_GA")).1
      (TTYOp.remoteRecv "SK")).2.countP isRemoteLabel = 0 ∧
    (send_msg (send_msg ⟨false, 2, false, "SIP/9"⟩ "HI" false).state "YE" false).events.countP
      isLocalLabel = 0 ∧
    ¬(isLocalTurn ⟨false, 2, false, "SIP/9"⟩ = true ∧
      isRemoteTurn ⟨false, 2, false, "SIP/9"⟩ = true)) :=
  ⟨rfl, c4_turn_indicator ⟨false, 2, false, "SIP/9"⟩ rfl "HI" "YE" "OK_GA" "SK"⟩

/-- C5: a directory query whose raw event sequence has size N ≥ 2 renders
exactly N-2 channel rows, the j-th displayed row (0-based j) carrying the
consecutive 1-based index j+1 and the raw entry at position j+1 — i.e.
indices 1..N-2 in raw order, excluding the first and last raw entries. -/
theorem c5_channel_listing (α : Type) (events : List α) (h : 2 ≤ events.length) :
    (print_channels events).length = events.length - 2 ∧
    ∀ j : Nat, j < events.length - 2 →
      ∃ a, events[j + 1]? = some a ∧ (print_channels events)[j]? = some (j + 1, a) := by
  refine ⟨print_channels_length events h, ?_⟩
  intro j hj
  have hb : j + 1 < events.length := by omega
  refine ⟨events[j + 1], ?_, ?_⟩
  · exact List.getElem?_eq_getElem hb
  · rw [print_channels_getElem events j hj, List.getElem?_eq_getElem hb]
    rfl

/-- C5 witness: a raw response of size 4 (header, two channels, completion
sentinel) renders rows (1, first channel) and (2, second channel). -/
theorem c5_witness :
    2 ≤ (["hdr", "SIP/a-1", "SIP/b-2", "done"] : List String).length ∧
    ((print_channels (["hdr", "SIP/a-1", "SIP/b-2", "done"] : List String)).length =
      (["hdr", "SIP/a-1", "SIP/b-2", "done"] : List String).length - 2 ∧
    ∀ j : Nat, j < (["hdr", "SIP/a-1", "SIP/b-2", "done"] : List String).length - 2 →
      ∃ a, (["hdr", "SIP/a-1", "SIP/b-2", "done"] : List String)[j + 1]? = some a ∧
        (print_channels (["hdr", "SIP/a-1", "SIP/b-2", "done"] : List String))[j]? =
          some (j + 1, a)) :=
  ⟨by decide, c5_channel_listing String ["hdr", "SIP/a-1", "SIP/b-2", "done"] (by decide)⟩

/-- C6 counterexample: against a listing of raw size 5 (so display indices
1..3), the input line 3x followed by newline is not a numeric string, yet
`get_channel` resolves it to channel 3 via `atoi` instead of flagging it
invalid — so "every other input (including non-numeric strings) is
Invalid" is false as stated. -/
theorem c6_counterexample :
    isNumericLine "3x\n" = false ∧
    select_channel "3x\n" ((print_channels_i 5 : Nat) : Int) = Selection.channel 3 := by
  decide

/-- C6 (amended): q-newline in any letter case quits; a bare newline
refreshes; a numeric string k with 1 ≤ k ≤ N-2 resolves to the channel at
display index k; more generally any line whose C `atoi` value lies in
[1, N-1) resolves to that value (this covers lines with a numeric value
followed by junk, which the original claim called Invalid), and any other
non-quit non-empty line is Invalid; the resolved index k names exactly the
raw entry shown at display position k. -/
theorem c6_selection_rules (N : Nat) (hN : 2 ≤ N) :
    (∀ line : String, strcaseEq line "q\n" = true →
      select_channel line ((print_channels_i N : Nat) : Int) = Selection.quit) ∧
    select_channel "\n" ((print_channels_i N : Nat) : Int) = Selection.refresh ∧
    (∀ ds : List Char, ds ≠ [] → (∀ c ∈ ds, c.isDigit = true) →
      1 ≤ digitsVal ds → digitsVal ds ≤ N - 2 →
      select_channel (String.mk (ds ++ ['\n'])) ((print_channels_i N : Nat) : Int) =
        Selection.channel (digitsVal ds)) ∧
    (∀ line : String, strcaseEq line "q\n" = false → line ≠ "\n" →
      1 ≤ atoi line → atoi line < ((print_channels_i N : Nat) : Int) →
      select_channel line ((print_channels_i N : Nat) : Int) =
        Selection.channel (atoi line).toNat) ∧
    (∀ line : String, strcaseEq line "q\n" = false → line ≠ "\n" →
      ¬(1 ≤ atoi line ∧ atoi line < ((print_channels_i N : Nat) : Int)) →
      select_channel line ((print_channels_i N : Nat) : Int) = Selection.invalid) ∧
    (∀ (events : List String) (k : Nat), events.length = N → 1 ≤ k → k ≤ N - 2 →
      ∃ a, events[k]? = some a ∧ (print_channels events)[k - 1]? = some (k, a)) := by
  have hmax : print_channels_i N = N - 1 := by
    rw [print_channels_i, Nat.max_eq_right]
    omega
  refine ⟨?_, ?_, ?_, ?_, ?_, ?_⟩
  · intro line hq
    simp [select_channel, hq]
  · have h1 : strcaseEq "\n" "q\n" = false := by decide
    simp [select_channel, h1]
  · intro ds h0 hd h1 h2
    have hq := strcaseEq_digits_ne_q ds hd
    have hne := numeric_line_ne_newline ds h0
    have hatoi := atoi_numeric_line ds h0 hd
    simp only [select_channel, hq, Bool.false_eq_true, if_false, if_neg hne, hatoi]
    have hcond : 1 ≤ (digitsVal ds : Int) ∧
        (digitsVal ds : Int) < ((print_channels_i N : Nat) : Int) := by
      constructor
      · exact_mod_cast h1
      · rw [hmax]
        exact_mod_cast (by omega : digitsVal ds < N - 1)
    rw [if_pos hcond]
    simp
  · intro line hq hne h1 h2
    simp only [select_channel, hq, Bool.false_eq_true, if_false, if_neg hne]
    rw [if_pos ⟨h1, h2⟩]
  · intro line hq hne hcond
    simp only [select_channel, hq, Bool.false_eq_true, if_false, if_neg hne]
    rw [if_neg hcond]
  · intro events k hlen h1 h2
    have hj : k - 1 < events.length - 2 := by omega
    have hb : k < events.length := by omega
    refine ⟨events[k], List.getElem?_eq_getElem hb, ?_⟩
    rw [print_channels_getElem events (k - 1) hj]
    have hk : k - 1 + 1 = k := by omega
    rw [hk, List.getElem?_eq_getElem hb]
    rfl

/-- C6 witness: the rules instantiated at raw listing size 5 (display
indices 1..3). -/
theorem c6_witness :
    2 ≤ 5 ∧
    ((∀ line : String, strcaseEq line "q\n" = true →
      select_channel line ((print_channels_i 5 : Nat) : Int) = Selection.quit) ∧
    select_channel "\n" ((print_channels_i 5 : Nat) : Int) = Selection.refresh ∧
    (∀ ds : List Char, ds ≠ [] → (∀ c ∈ ds, c.isDigit = true) →
      1 ≤ digitsVal ds → digitsVal ds ≤ 5 - 2 →
      select_channel (String.mk (ds ++ ['\n'])) ((print_channels_i 5 : Nat) : Int) =
        Selection.channel (digitsVal ds)) ∧
    (∀ line : String, strcaseEq line "q\n" = false → line ≠ "\n" →
      1 ≤ atoi line → atoi line < ((print_channels_i 5 : Nat) : Int) →
      select_channel line ((print_channels_i 5 : Nat) : Int) =
        Selection.channel (atoi line).toNat) ∧
    (∀ line : String, strcaseEq line "q\n" = false → line ≠ "\n" →
      ¬(1 ≤ atoi line ∧ atoi line < ((print_channels_i 5 : Nat) : Int)) →
      select_channel line ((print_channels_i 5 : Nat) : Int) = Selection.invalid) ∧
    (∀ (events : List String) (k : Nat), events.length = 5 → 1 ≤ k → k ≤ 5 - 2 →
      ∃ a, events[k]? = some a ∧ (print_channels events)[k - 1]? = some (k, a))) :=
  ⟨by decide, c6_selection_rules 5 (by decide)⟩

end AsTTYSpy
